import Mathlib

/-!
Verification development for the scrappe-tout repository.

Shallow embedding of the core components:
* `src/src/services/error.js` — error classification (`classifyError`,
  `isRetryableError`, `wrapError`) and the retry executor
  (`executeWithRetry`).
* `src/src/core/postprocessor.js` — the content-normalization pipeline
  (`postProcessMarkdown` and its passes).
* `src/src/core/navigation-cleaner.js` — the navigation chrome scanner
  (`removeNavigationMenus`).

Strings are modelled as `List Char`; JavaScript string/regex operations
used by the source are hand-translated into executable Lean functions.
-/

namespace ScrappeTout

/-! ## JavaScript error objects (services/error.js)

A JS error reaching this service is an arbitrary object; the fields the
service inspects are `name`, `message`, `code`, `status`,
`context.nonRetryable` / `context.attemptsMade` / `context.totalAttempts`
/ `context.message`, plus the `instanceof ScrapingError` test.  `code` is
a string whose JS truthiness is "present and non-empty"; `status` is a
number whose truthiness is "present and non-zero".  The `originalError`
back-pointer stored by the `ScrapingError` constructor is not inspected
by any modelled function and is omitted. -/

structure ErrCtx where
  nonRetryable : Bool := false
  attemptsMade : Option Nat := none
  totalAttempts : Option Nat := none
  message : Option (List Char) := none
  deriving Repr, DecidableEq

structure JsError where
  name : List Char := []
  message : List Char := []
  code : Option (List Char) := none
  status : Option Nat := none
  context : Option ErrCtx := none
  /-- whether `error instanceof ScrapingError` holds -/
  isScraping : Bool := false
  deriving Repr, DecidableEq, Inhabited

/-- JS truthiness of `error.code` (a string: truthy iff non-empty). -/
def codeTruthy (e : JsError) : Bool :=
  match e.code with
  | none => false
  | some s => !s.isEmpty

/-- JS truthiness of `error.status` (a number: truthy iff non-zero). -/
def statusTruthy (e : JsError) : Bool :=
  match e.status with
  | none => false
  | some n => n != 0

/-- JS truthiness of `error.context?.nonRetryable`. -/
def ctxNonRetryable (e : JsError) : Bool :=
  match e.context with
  | none => false
  | some c => c.nonRetryable

/-- ErrorType codes from `src/src/utils/constants.js`. -/
def ErrorTypeNETWORK : List Char := "NETWORK_ERROR".toList

def ErrorTypeTIMEOUT : List Char := "TIMEOUT_ERROR".toList

/-- Model of `isRetryableError` from `src/src/services/error.js` (lines 100–132).
Checks, in order: the explicit non-retryable mark, the retryable network
fault codes, the retryable HTTP statuses (an early `return` when a truthy
status is present), and finally the `TimeoutError` name. -/
def isRetryableError (e : JsError) : Bool :=
  if ctxNonRetryable e then false
  else if codeTruthy e &&
      (["ETIMEDOUT".toList, "ENOTFOUND".toList, "ECONNRESET".toList,
        "ECONNREFUSED".toList].contains (e.code.getD [])) then true
  else if statusTruthy e then
    ([408, 429, 500, 502, 503, 504] : List Nat).contains (e.status.getD 0)
  else if e.name = "TimeoutError".toList then true
  else false

/-- Model of `wrapError` from `src/src/services/error.js` (lines 164–169): an
error already being a `ScrapingError` is returned unchanged; otherwise a
fresh `ScrapingError` is built from the message, the given code and the
given context. -/
def wrapError (e : JsError) (code : List Char) (ctx : ErrCtx) : JsError :=
  if e.isScraping then e
  else { name := "ScrapingError".toList, message := e.message,
         code := some code, context := some ctx, isScraping := true }

/-! ## Retry executor (services/error.js lines 219–276)

The operation is modelled as a function from the 1-based attempt number
to `Except JsError α` (the JS operation receives the attempt number and
either returns or throws).  Delays and the `onRetry` observer are
side-effect only and do not influence the value; the executor here also
returns the list of attempt numbers passed to the operation, mirroring
the loop's invocation order.  `fuel` is an upper bound on the remaining
loop iterations; it is always instantiated with `maxAttempts`, which the
loop never exceeds, so the `fuel = 0` branch is unreachable for
`maxAttempts ≥ 1`. -/

def executeWithRetryAux (op : Nat → Except JsError α) (maxAttempts : Nat) :
    Nat → Nat → List Nat × Except JsError α
  | _, 0 => ([], .error default)
  | attempt, fuel + 1 =>
    match op attempt with
    | .ok v => ([attempt], .ok v)
    | .error e =>
      -- `if (attempt >= maxAttempts) break;` then the post-loop wrap
      if maxAttempts ≤ attempt then
        ([attempt], .error (wrapError e ErrorTypeNETWORK
          { totalAttempts := some maxAttempts,
            message := some ("Operation failed after ".toList ++
              (toString maxAttempts).toList ++ " attempts".toList) }))
      -- `if (!isRetryableError(error)) throw wrapError(...)`
      else if !isRetryableError e then
        ([attempt], .error (wrapError e ErrorTypeNETWORK
          { nonRetryable := true, attemptsMade := some attempt }))
      else
        let r := executeWithRetryAux op maxAttempts (attempt + 1) fuel
        (attempt :: r.1, r.2)

/-- Model of `executeWithRetry`: run the retry loop from attempt 1.  The first
component is the trace of attempt numbers passed to the operation, the
second the returned/raised value. -/
def executeWithRetry (op : Nat → Except JsError α) (maxAttempts : Nat) :
    List Nat × Except JsError α :=
  executeWithRetryAux op maxAttempts 1 maxAttempts

/-- Model of `calculateDelay` from `src/src/services/error.js` (lines 195–204),
with the random draw realized as the explicit `jitter` parameter
(`jitter = 1 + (Math.random() * 0.2 - 0.1)`):
`min (baseDelay * 2 ^ (attempt - 1) * jitter) maxDelay`. -/
def calculateDelay (attempt : Nat) (baseDelay maxDelay jitter : ℚ) : ℚ :=
  min (baseDelay * 2 ^ (attempt - 1) * jitter) maxDelay

/-! ## JavaScript string primitives

Documents are `List Char`.  The functions below model the JS string
operations the source uses: `split("\n")`, `join("\n")`, `trim`,
`trimEnd`, `toLowerCase` (ASCII letters, the only ones the heuristics
compare), `startsWith`, `includes`. -/

/-- The JS whitespace class (`\s`, and the set trimmed by
`String.prototype.trim`). -/
def isJsWs (c : Char) : Bool :=
  c = ' ' || c = '\t' || c = '\n' || c = '\x0b' || c = '\x0c' || c = '\r' ||
  c = '\u00A0' || c = '\u1680' || ('\u2000' ≤ c && c ≤ '\u200A') ||
  c = '\u2028' || c = '\u2029' || c = '\u202F' || c = '\u205F' ||
  c = '\u3000' || c = '\uFEFF'

/-- JS `trimEnd()`. -/
def jsTrimEnd (s : List Char) : List Char :=
  (s.reverse.dropWhile isJsWs).reverse

/-- JS `trim()`. -/
def jsTrim (s : List Char) : List Char :=
  jsTrimEnd (s.dropWhile isJsWs)

/-- JS `toLowerCase()` (ASCII case fold; every string the heuristics
compare against is ASCII). -/
def lowerStr (s : List Char) : List Char :=
  s.map Char.toLower

/-- JS `s.includes(pat)`. -/
def hasSub (s pat : List Char) : Bool :=
  if pat.isPrefixOf s then true
  else
    match s with
    | [] => false
    | _ :: t => hasSub t pat

/-- JS `s.split("\n")`. -/
def splitLines : List Char → List (List Char)
  | [] => [[]]
  | c :: rest =>
    if c = '\n' then [] :: splitLines rest
    else
      match splitLines rest with
      | [] => [[c]]
      | l :: ls => (c :: l) :: ls

/-- JS `lines.join("\n")`. -/
def joinLines : List (List Char) → List Char
  | [] => []
  | [l] => l
  | l :: ls => l ++ '\n' :: joinLines ls

/-- JS `s.startsWith("-")`. -/
def startsWithDash : List Char → Bool
  | c :: _ => c = '-'
  | [] => false

/-! ## Regular-expression tests

The source uses `regex.test(line)` / `line.match(regex)` purely as
boolean line classifiers.  Matching is modelled with Brzozowski
derivatives, which decide "some match exists" — exactly the semantics of
a boolean test (greedy/lazy distinctions do not affect existence). -/

inductive Re where
  | emp : Re
  | eps : Re
  | cls (p : Char → Bool) : Re
  | alt (a b : Re) : Re
  | cat (a b : Re) : Re
  | star (a : Re) : Re

def Re.nullable : Re → Bool
  | .emp => false
  | .eps => true
  | .cls _ => false
  | .alt a b => a.nullable || b.nullable
  | .cat a b => a.nullable && b.nullable
  | .star _ => true

/-- Smart `alt` (drops `emp` branches). -/
def Re.altS : Re → Re → Re
  | .emp, b => b
  | a, .emp => a
  | a, b => .alt a b

/-- Smart `cat` (absorbs `emp`, elides `eps`). -/
def Re.catS : Re → Re → Re
  | .emp, _ => .emp
  | _, .emp => .emp
  | .eps, b => b
  | a, .eps => a
  | a, b => .cat a b

def Re.deriv : Re → Char → Re
  | .emp, _ => .emp
  | .eps, _ => .emp
  | .cls p, c => if p c then .eps else .emp
  | .alt a b, c => (a.deriv c).altS (b.deriv c)
  | .cat a b, c =>
    if a.nullable then ((a.deriv c).catS b).altS (b.deriv c)
    else (a.deriv c).catS b
  | .star a, c => (a.deriv c).catS (.star a)

/-- Full-string match. -/
def reMatch (r : Re) (s : List Char) : Bool :=
  (s.foldl Re.deriv r).nullable

def chrRe (c : Char) : Re := .cls (fun d => d = c)

def litRe (s : String) : Re :=
  s.toList.foldr (fun c r => (chrRe c).catS r) .eps

def seqRe (rs : List Re) : Re := rs.foldr Re.catS .eps

/-- Pattern `.` without the `s` flag. -/
def dotRe : Re := .cls (fun c => c ≠ '\n')

/-- matches any character (used for the unanchored tail of a `.test`). -/
def anyRe : Re := .cls (fun _ => true)

def plusRe (r : Re) : Re := r.catS (.star r)

def optRe (r : Re) : Re := Re.eps.altS r

def wsRe : Re := .cls isJsWs

/-- Pattern `\d`. -/
def digitRe : Re := .cls Char.isDigit

/-- Semantics of `re.test s` for a pattern anchored with `^` only: some prefix of `s`
matches the body. -/
def reTest (body : Re) (s : List Char) : Bool :=
  reMatch (body.catS (.star anyRe)) s

end ScrappeTout

namespace ScrappeTout

/-! ## Line classifiers (postprocessor.js / navigation-cleaner.js) -/

/-- the TOC-item pattern from `removeDuplicateTOC`
(`/^[-\s]*-\s+\[.+?\]\(#.+\)/`), applied to the trimmed line. -/
def isTocItem (t : List Char) : Bool :=
  reTest (seqRe [.star (.cls (fun c => c = '-' || isJsWs c)), chrRe '-',
    plusRe wsRe, chrRe '[', plusRe dotRe, chrRe ']',
    chrRe '(', chrRe '#', plusRe dotRe, chrRe ')']) t

/-- first pattern of `removeHeaderNav`
(`/^\[!\[.*?logo.*?\]\(.*?\).*?\]\(\/\)/`). -/
def isHeaderNavLink (t : List Char) : Bool :=
  reTest (seqRe [litRe "[![", .star dotRe, litRe "logo", .star dotRe,
    chrRe ']', chrRe '(', .star dotRe, chrRe ')', .star dotRe,
    litRe "](/)"]) t

/-- second pattern of `removeHeaderNav`
(`/^\[!\[.*?\]\(\/assets\/images\/branding\/.*?\)/`). -/
def isBrandingImage (t : List Char) : Bool :=
  reTest (seqRe [litRe "[![", .star dotRe, litRe "](",
    litRe "/assets/images/branding/", .star dotRe, chrRe ')']) t

/-- Model of `removeHeaderNav` from `src/src/core/postprocessor.js` (lines
64–86): drop every line whose trimmed form matches either navigation
pattern. -/
def removeHeaderNav (s : List Char) : List Char :=
  joinLines ((splitLines s).filter
    (fun l => !(isHeaderNavLink (jsTrim l) || isBrandingImage (jsTrim l))))

/-- the line loop of `removeDuplicateTOC` from
`src/src/core/postprocessor.js` (lines 16–59).  State: `inToc`,
`seenToc`, and the accumulated `tocLines` of the currently open run.  A
run still open when the input ends is never flushed (the source loop
exits without pushing `tocLines`). -/
def removeDuplicateTOCAux :
    List (List Char) → Bool → Bool → List (List Char) → List (List Char)
  | [], _, _, _ => []
  | l :: rest, inToc, seenToc, tocLines =>
    if isTocItem (jsTrim l) then
      removeDuplicateTOCAux rest true seenToc
        (if inToc then tocLines ++ [l] else [l])
    else if inToc then
      if !seenToc && tocLines.length < 30 && decide (2 < tocLines.length) then
        tocLines ++ l :: removeDuplicateTOCAux rest false true []
      else
        l :: removeDuplicateTOCAux rest false seenToc []
    else
      l :: removeDuplicateTOCAux rest false seenToc tocLines

/-- Model of `removeDuplicateTOC` from `src/src/core/postprocessor.js`. -/
def removeDuplicateTOC (s : List Char) : List Char :=
  joinLines (removeDuplicateTOCAux (splitLines s) false false [])

/-! ## Navigation cleaner (navigation-cleaner.js) -/

def navigationKeywords : List (List Char) :=
  ["skip to main content", "ok, got it", "learn more", "menuclose",
   "menu close", "uses cookies from google", "get started", "on this page",
   "copy link", "view source", "report issue", "more_vert", "[search]",
   "is live!"].map String.toList

/-- the keyword drop: `trimmedLine.toLowerCase().includes(keyword)`. -/
def hasNavKeyword (t : List Char) : Bool :=
  navigationKeywords.any (fun k => hasSub (lowerStr t) k)

/-- Model of `MENU_SECTION_HEADERS`: `/^routine$/im` etc. tested against the
trimmed line (which contains no newline, so `^`/`$` bound the whole
line and `i` reduces to a case fold). -/
def isMenuSectionHeader (t : List Char) : Bool :=
  (["routine", "apps", "list", "more_vert"].map String.toList).any
    (fun h => lowerStr t = h)

/-- the `isMenuList` window heuristic (navigation-cleaner.js lines
82–96), applied to the joined lowercased up-to-20-line window. -/
def isMenuList (window : List (List Char)) : Bool :=
  let listContent := lowerStr (joinLines window)
  (hasSub listContent "logo".toList &&
     hasSub listContent "navigate to".toList) ||
  (hasSub listContent "install".toList &&
     hasSub listContent "files".toList) ||
  hasSub listContent "user interface".toList ||
  hasSub listContent "component catalog".toList ||
  (hasSub listContent "palette".toList &&
     hasSub listContent "view_module".toList) ||
  hasSub listContent "#introduction".toList ||
  hasSub listContent "#create-a-new".toList

/-- Pattern `/^-\s*\[!\[.*?logo.*?\]\(.*?\)/` (standalone logo image-link). -/
def isStandaloneLogoLink (t : List Char) : Bool :=
  reTest (seqRe [chrRe '-', .star wsRe, litRe "[![", .star dotRe,
    litRe "logo", .star dotRe, chrRe ']', chrRe '(', .star dotRe,
    chrRe ')']) t

/-- Pattern `/^\[#\]\(#.+\)$/` (empty anchor link; fully anchored). -/
def isEmptyAnchorLink (t : List Char) : Bool :=
  reMatch (seqRe [litRe "[#](#", plusRe dotRe, chrRe ')']) t

/-- Pattern `/^\[vertical_align_top.*?\]\(#.+\)$/ ` (navigation icon link). -/
def isNavIconLink (t : List Char) : Bool :=
  reMatch (seqRe [litRe "[vertical_align_top", .star dotRe, chrRe ']',
    litRe "(#", plusRe dotRe, chrRe ')']) t

/-- Pattern `/^\d+\.\s+\[.*?\]\(.*\)(\s+chevron_right)?$/` (numbered navigation
list item). -/
def isNumberedNavItem (t : List Char) : Bool :=
  reMatch (seqRe [plusRe digitRe, chrRe '.', plusRe wsRe, chrRe '[',
    .star dotRe, chrRe ']', chrRe '(', .star dotRe, chrRe ')',
    optRe (seqRe [plusRe wsRe, litRe "chevron_right"])]) t

/-- the last four unconditional drops of the scanner (lines 125–141). -/
def navDropLine (t : List Char) : Bool :=
  isStandaloneLogoLink t || isEmptyAnchorLink t || isNavIconLink t ||
    isNumberedNavItem t

/-- the line loop of `removeNavigationMenus` from
`src/src/core/navigation-cleaner.js` (lines 59–144).  The scan state
`skipMode` is `0` (normal), `1` (in menu list) or `2` (in menu
section); the lookahead window is the next up-to-20 lines including the
current one. -/
def navAux : List (List Char) → Nat → List (List Char)
  | [], _ => []
  | l :: rest, skipMode =>
    let t := jsTrim l
    if hasNavKeyword t then navAux rest skipMode
    else if isMenuSectionHeader t then navAux rest 2
    else if startsWithDash t &&
        (match rest with
         | [] => false
         | n :: _ => startsWithDash (jsTrim n)) &&
        isMenuList ((l :: rest).take 20) then
      navAux rest 1
    else if skipMode = 1 then
      if !startsWithDash t && !t.isEmpty then
        -- transition back to NORMAL and process the line normally
        if navDropLine t then navAux rest 0 else l :: navAux rest 0
      else navAux rest 1
    else if skipMode = 2 then
      if t.isEmpty &&
          (match rest with
           | [] => false
           | n :: _ => !startsWithDash (jsTrim n)) then
        navAux rest 0
      else navAux rest 2
    else if navDropLine t then navAux rest skipMode
    else l :: navAux rest skipMode

/-- the `replace(/\n{3,}/g, "\n\n")` collapse, written as a scan
carrying the length of the pending newline run: a maximal run of `k ≥ 3`
newlines is emitted as 2, shorter runs verbatim. -/
def collapseAux : Nat → List Char → List Char
  | k, [] => List.replicate (min k 2) '\n'
  | k, c :: rest =>
    if c = '\n' then collapseAux (k + 1) rest
    else List.replicate (min k 2) '\n' ++ c :: collapseAux 0 rest

def collapseNewlines (s : List Char) : List Char := collapseAux 0 s

/-- Model of `removeNavigationMenus` from `src/src/core/navigation-cleaner.js`:
scan the lines, rejoin, collapse 3+ newlines, trim the whole text. -/
def removeNavigationMenus (s : List Char) : List Char :=
  jsTrim (collapseNewlines (joinLines (navAux (splitLines s) 0)))

/-- Model of `cleanWhitespace` from `src/src/core/postprocessor.js` (lines
175–188): collapse 3+ newlines, then strip trailing whitespace from
every line. -/
def cleanWhitespace (s : List Char) : List Char :=
  joinLines ((splitLines (collapseNewlines s)).map jsTrimEnd)

end ScrappeTout

namespace ScrappeTout

/-! ## JS `replace(regex, …)` with the `g` flag

`jsReplaceAll tryMatch` scans left to right; at each position
`tryMatch` either returns `(replacement, remainder-after-match)` — the
scan emits the replacement and resumes after the match, as the JS engine
does — or `none`, and the scan advances one character.  Every `tryMatch`
below consumes at least the character it starts on, so `fuel :=
s.length` never runs out and the `fuel = 0` case is unreachable. -/

def jsReplaceAll (tryMatch : List Char → Option (List Char × List Char)) :
    Nat → List Char → List Char
  | _, [] => []
  | 0, s => s
  | fuel + 1, c :: rest =>
    match tryMatch (c :: rest) with
    | some (repl, remainder) => repl ++ jsReplaceAll tryMatch fuel remainder
    | none => c :: jsReplaceAll tryMatch fuel rest

def jsReplace (tryMatch : List Char → Option (List Char × List Char))
    (s : List Char) : List Char :=
  jsReplaceAll tryMatch s.length s

/-- case-insensitive literal test at the head of `s` (`pat` given
lowercase, as in every pattern of the source). -/
def ciStartsWith (s pat : List Char) : Bool :=
  pat.isPrefixOf (lowerStr (s.take pat.length))

/-- split `s` at the first case-insensitive occurrence of `pat`:
`(before, after-the-occurrence)`. -/
def findCi (pat : List Char) : List Char → Option (List Char × List Char)
  | [] => if pat.isEmpty then some ([], []) else none
  | c :: rest =>
    if ciStartsWith (c :: rest) pat then some ([], (c :: rest).drop pat.length)
    else
      match findCi pat rest with
      | some (pre, post) => some (c :: pre, post)
      | none => none

/-! ### `convertDefinitionLists` (postprocessor.js lines 98–118) -/

/-- continuation of the paired pattern after a candidate `</dt>`:
`\s*<dd>(.*?)<\/dd>` — skip whitespace, expect `<dd>`, take the lazily
shortest description up to the first `</dd>`. -/
def dtDdCont (b : List Char) : Option (List Char × List Char) :=
  let r2 := b.dropWhile isJsWs
  if ciStartsWith r2 "<dd>".toList then findCi "</dd>".toList (r2.drop 4)
  else none

/-- backtracking search for the `</dt>` closing the lazy group 1 of
`/<dt>(.*?)<\/dt>\s*<dd>(.*?)<\/dd>/is`: the first `</dt>` whose
continuation succeeds (on failure the lazy group grows past it). -/
def dtDdScan (term : List Char) :
    List Char → Option (List Char × List Char × List Char)
  | [] => none
  | c :: bs =>
    if ciStartsWith (c :: bs) "</dt>".toList then
      match dtDdCont ((c :: bs).drop 5) with
      | some (desc, rem) => some (term, desc, rem)
      | none => dtDdScan (term ++ [c]) bs
    else dtDdScan (term ++ [c]) bs

/-- one match of `/<dt>(.*?)<\/dt>\s*<dd>(.*?)<\/dd>/gis`, replaced by
``**${term}**\n: ${desc.trim()}\n``. -/
def tryDtDd (s : List Char) : Option (List Char × List Char) :=
  if ciStartsWith s "<dt>".toList then
    match dtDdScan [] (s.drop 4) with
    | some (term, desc, rem) =>
      some ("**".toList ++ term ++ "**\n: ".toList ++ jsTrim desc ++
        ['\n'], rem)
    | none => none
  else none

/-- lazy single-line group up to the first `close` (no `s` flag: the
group cannot cross a newline). -/
def loneScan (close : List Char) (term : List Char) :
    List Char → Option (List Char × List Char)
  | [] => none
  | c :: bs =>
    if ciStartsWith (c :: bs) close then
      some (term, (c :: bs).drop close.length)
    else if c = '\n' then none
    else loneScan close (term ++ [c]) bs

/-- one match of `/<dt>(.*?)<\/dt>/gi`, replaced by ``**$1**\n``. -/
def tryDt (s : List Char) : Option (List Char × List Char) :=
  if ciStartsWith s "<dt>".toList then
    (loneScan "</dt>".toList [] (s.drop 4)).map
      (fun r => ("**".toList ++ r.1 ++ "**\n".toList, r.2))
  else none

/-- one match of `/<dd>(.*?)<\/dd>/gi`, replaced by ``: $1\n``. -/
def tryDd (s : List Char) : Option (List Char × List Char) :=
  if ciStartsWith s "<dd>".toList then
    (loneScan "</dd>".toList [] (s.drop 4)).map
      (fun r => (": ".toList ++ r.1 ++ "\n".toList, r.2))
  else none

/-- one match of `/<\/?dl>/gi`, deleted. -/
def tryDl (s : List Char) : Option (List Char × List Char) :=
  if ciStartsWith s "<dl>".toList then some ([], s.drop 4)
  else if ciStartsWith s "</dl>".toList then some ([], s.drop 5)
  else none

/-- one match of `/\n:\s*\n/g`, replaced by `"\n"`.  The greedy `\s*`
followed by the literal `\n` makes the match end at the last newline of
the whitespace run after `"\n:"`. -/
def tryColonBlank (s : List Char) : Option (List Char × List Char) :=
  match s with
  | '\n' :: ':' :: rest =>
    let w := rest.takeWhile isJsWs
    match (w.reverse.findIdx? (fun c => c = '\n')).map
        (fun k => w.length - 1 - k) with
    | some j => some (['\n'], rest.drop (j + 1))
    | none => none
  | _ => none

/-- Model of `convertDefinitionLists` from `src/src/core/postprocessor.js`:
paired `<dt>…</dt>\s*<dd>…</dd>` first, then lone `<dt>`/`<dd>` pairs,
then `<dl>` tags and empty-description cleanup. -/
def convertDefinitionLists (s : List Char) : List Char :=
  let c1 := jsReplace tryDtDd s
  let c2 := jsReplace tryDd (jsReplace tryDt c1)
  jsReplace tryColonBlank (jsReplace tryDl c2)

/-! ### `stripRemainingHtml` (postprocessor.js lines 127–167) -/

/-- one match of ``<tag[^>]*>.*?</tag>`` (flags `gis`), deleted. -/
def tryTagPair (tag : List Char) (s : List Char) :
    Option (List Char × List Char) :=
  if ciStartsWith s ('<' :: tag) then
    let after := s.drop (1 + tag.length)
    match after.dropWhile (fun c => c ≠ '>') with
    | '>' :: rest2 =>
      match findCi ('<' :: '/' :: tag ++ ['>']) rest2 with
      | some (_, rem) => some ([], rem)
      | none => none
    | _ => none
  else none

/-- one match of ``<tag[^>]*>`` (`img`, `input`), deleted. -/
def tryVoidTag (tag : List Char) (s : List Char) :
    Option (List Char × List Char) :=
  if ciStartsWith s ('<' :: tag) then
    match (s.drop (1 + tag.length)).dropWhile (fun c => c ≠ '>') with
    | '>' :: rest2 => some ([], rest2)
    | _ => none
  else none

/-- one match of ``<tag\s*/?>`` (`br`, `hr`), deleted. -/
def tryBreakTag (tag : List Char) (s : List Char) :
    Option (List Char × List Char) :=
  if ciStartsWith s ('<' :: tag) then
    match (s.drop (1 + tag.length)).dropWhile isJsWs with
    | '/' :: '>' :: r => some ([], r)
    | '>' :: r => some ([], r)
    | _ => none
  else none

def allowedTagNames : List (List Char) :=
  ["code", "pre", "kbd", "samp", "strong", "em", "a", "p", "h1", "h2",
   "h3", "h4", "h5", "h6", "ul", "ol", "li", "blockquote", "div",
   "span"].map String.toList

/-- JS `\w`. -/
def isWordChar (c : Char) : Bool :=
  ('a' ≤ c && c ≤ 'z') || ('A' ≤ c && c ≤ 'Z') ||
  ('0' ≤ c && c ≤ '9') || c = '_'

/-- the lookahead `(?!\/?(?:code|pre|…|span)\b)` of the catch-all tag
regex: after an optional `/`, some allowed tag name matches and is
followed by a word boundary. -/
def allowedLookahead (rest : List Char) : Bool :=
  let r := match rest with
    | '/' :: t => t
    | t => t
  allowedTagNames.any (fun n =>
    ciStartsWith r n &&
      (match r.drop n.length with
       | [] => true
       | c :: _ => !isWordChar c))

/-- one match of the catch-all
`/<(?!\/?(?:code|pre|…|span)\b)[^>]+>/gi`, deleted. -/
def tryCatchAll (s : List Char) : Option (List Char × List Char) :=
  match s with
  | '<' :: rest =>
    if allowedLookahead rest then none
    else
      let body := rest.takeWhile (fun c => c ≠ '>')
      match rest.dropWhile (fun c => c ≠ '>') with
      | '>' :: r => if body.isEmpty then none else some ([], r)
      | _ => none
  | _ => none

/-- Model of `stripRemainingHtml` from `src/src/core/postprocessor.js`: paired
denylist tags, then the self-closing/void set, then the allow-list
catch-all. -/
def stripRemainingHtml (s : List Char) : List Char :=
  let pairTags := ["script", "style", "nav", "footer", "header", "aside",
    "navlink"].map String.toList
  let s1 := pairTags.foldl (fun acc tag => jsReplace (tryTagPair tag) acc) s
  let s2 := jsReplace (tryVoidTag "img".toList) s1
  let s3 := jsReplace (tryBreakTag "br".toList) s2
  let s4 := jsReplace (tryBreakTag "hr".toList) s3
  let s5 := jsReplace (tryVoidTag "input".toList) s4
  let s6 := jsReplace (tryTagPair "button".toList) s5
  jsReplace tryCatchAll s6

/-- Model of `postProcessMarkdown` from `src/src/core/postprocessor.js` (lines
200–236) — the `normalize` pipeline.  `preserveBreadcrumbs` is accepted
and unused, as in the source. -/
def postProcessMarkdown (markdown : List Char)
    (preserveBreadcrumbs convertHtmlTags : Bool) : List Char :=
  let _ := preserveBreadcrumbs
  let p0 := removeHeaderNav markdown
  let p1 := removeDuplicateTOC p0
  let p2 := convertDefinitionLists p1
  let p3 := if convertHtmlTags then stripRemainingHtml p2 else p2
  let p4 := removeNavigationMenus p3
  cleanWhitespace p4

/-- Model of `normalize` under the default options
(`preserveBreadcrumbs = false`, `convertHtmlTags = true`). -/
def normalize (s : List Char) : List Char :=
  postProcessMarkdown s false true

end ScrappeTout

namespace ScrappeTout

/-! ## Normal-form predicates

Decidable descriptions of documents on which each pass acts as the
identity; used to state when the pipeline is idempotent. -/

/-- True iff the text contains three consecutive newlines, i.e. two
consecutive blank lines. -/
def hasTripleNewline : List Char → Bool
  | c1 :: c2 :: c3 :: rest =>
    (c1 = '\n' && c2 = '\n' && c3 = '\n') ||
      hasTripleNewline (c2 :: c3 :: rest)
  | _ => false

/-- Truth of `p` at every suffix of the list (the positions a global
`replace` scan can attempt a match at). -/
def suffixesAll (p : List Char → Bool) : List Char → Bool
  | [] => p []
  | c :: rest => p (c :: rest) && suffixesAll p rest

/-- no suffix of `s` begins a match of `tryMatch`. -/
def noMatchAt (tryMatch : List Char → Option (List Char × List Char))
    (s : List Char) : Bool :=
  suffixesAll (fun t => (tryMatch t).isNone) s

/-- none of the up-to-20-line lookahead windows of the line list fires
the `isMenuList` heuristic. -/
def windowsFree : List (List Char) → Bool
  | [] => true
  | l :: rest => !isMenuList ((l :: rest).take 20) && windowsFree rest

/-- a line on which every line-level rule of the pipeline is inert. -/
def cleanLine (l : List Char) : Bool :=
  !isHeaderNavLink (jsTrim l) && !isBrandingImage (jsTrim l) &&
  !isTocItem (jsTrim l) && !hasNavKeyword (jsTrim l) &&
  !isMenuSectionHeader (jsTrim l) && !navDropLine (jsTrim l) &&
  jsTrimEnd l = l

/-- a document in pipeline normal form: every line is inert for the
line-level rules, no menu-heuristic window fires, no definition-list or
HTML-tag replace matches anywhere, no run of 3+ newlines, and the
document carries no leading/trailing whitespace. -/
def cleanDoc (s : List Char) : Bool :=
  (splitLines s).all cleanLine &&
  windowsFree (splitLines s) &&
  !hasTripleNewline s &&
  jsTrim s = s &&
  noMatchAt tryDtDd s && noMatchAt tryDt s && noMatchAt tryDd s &&
  noMatchAt tryDl s && noMatchAt tryColonBlank s &&
  (["script", "style", "nav", "footer", "header", "aside",
    "navlink"].map String.toList).all
    (fun tag => noMatchAt (tryTagPair tag) s) &&
  noMatchAt (tryVoidTag "img".toList) s &&
  noMatchAt (tryBreakTag "br".toList) s &&
  noMatchAt (tryBreakTag "hr".toList) s &&
  noMatchAt (tryVoidTag "input".toList) s &&
  noMatchAt (tryTagPair "button".toList) s &&
  noMatchAt tryCatchAll s

end ScrappeTout

namespace ScrappeTout

/-! ## Theorems: retry executor (C1–C4) -/

/-- Reaching attempt `a < maxAttempts` through retryable failures and
failing there non-retryably stops the loop with the `nonRetryable`
wrap. -/
theorem retryAux_reach (op : Nat → Except JsError α) (N a : Nat)
    (e : JsError) (ha : a < N) (hop : op a = .error e)
    (hnr : isRetryableError e = false) :
    ∀ j attempt fuel, attempt + j = a → j < fuel →
      (∀ k, attempt ≤ k → k < a →
        ∃ ek, op k = .error ek ∧ isRetryableError ek = true) →
      executeWithRetryAux op N attempt fuel =
        (List.range' attempt (j + 1),
         .error (wrapError e ErrorTypeNETWORK
           { nonRetryable := true, attemptsMade := some a })) := by
  intro j
  induction j with
  | zero =>
    intro attempt fuel h0 hf _hk
    cases fuel with
    | zero => omega
    | succ f =>
      have hae : attempt = a := by omega
      subst hae
      simp only [executeWithRetryAux, hop]
      rw [if_neg (by omega), if_pos (by simp [hnr])]
      simp [List.range']
  | succ j ih =>
    intro attempt fuel h0 hf hk
    cases fuel with
    | zero => omega
    | succ f =>
      obtain ⟨ek, hek, hretry⟩ := hk attempt (Nat.le_refl _) (by omega)
      simp only [executeWithRetryAux, hek]
      rw [if_neg (by omega), if_neg (by simp [hretry])]
      rw [ih (attempt + 1) f (by omega) (by omega)
        (fun k hk1 hk2 => hk k (by omega) hk2)]
      simp [List.range'_succ]

end ScrappeTout

namespace ScrappeTout

/-- C1 (counterexample): an operation whose only permitted attempt
(`maxAttempts = 1`) fails with the non-retryable status 404 is raised
with `context.totalAttempts = 1` and `context.nonRetryable = false` —
not, as the claim states, with `context.nonRetryable = true`: the loop
breaks on `attempt >= maxAttempts` before the retryability check. -/
theorem C1_counterexample :
    executeWithRetry (α := Nat) (fun _ => .error { status := some 404 }) 1 =
      ([1], .error
        { name := "ScrapingError".toList, message := [],
          code := some ErrorTypeNETWORK, status := none,
          context := some
            { nonRetryable := false, attemptsMade := none,
              totalAttempts := some 1,
              message := some "Operation failed after 1 attempts".toList },
          isScraping := true }) := by
  rfl

/-- C1 (amended): a non-retryable failure on attempt `a` strictly
before the final permitted attempt (`a < maxAttempts`) stops the loop —
exactly attempts `1..a` are made — and raises the error wrapped with
`context.nonRetryable = true` and `context.attemptsMade = a`; on the
final attempt the wrap instead carries `totalAttempts`
(see the counterexample). -/
theorem C1_nonretryable_midrun (op : Nat → Except JsError α) (N a : Nat)
    (e : JsError) (h1 : 1 ≤ a) (ha : a < N) (hop : op a = .error e)
    (hnr : isRetryableError e = false)
    (hprev : ∀ k, 1 ≤ k → k < a →
      ∃ ek, op k = .error ek ∧ isRetryableError ek = true) :
    executeWithRetry op N =
      (List.range' 1 a,
       .error (wrapError e ErrorTypeNETWORK
         { nonRetryable := true, attemptsMade := some a })) := by
  have h := retryAux_reach op N a e ha hop hnr (a - 1) 1 N (by omega)
    (by omega) (fun k hk1 hk2 => hprev k hk1 hk2)
  rw [executeWithRetry, h]
  congr 2
  omega

/-- C1 witness: retryable 503 on attempt 1, non-retryable 404 on
attempt 2 of 3. -/
theorem C1_nonretryable_midrun_witness :
    executeWithRetry (α := Nat)
      (fun k => if k = 2 then .error { status := some 404 }
                else .error { status := some 503 }) 3 =
      ([1, 2],
       .error (wrapError { status := some 404 } ErrorTypeNETWORK
         { nonRetryable := true, attemptsMade := some 2 })) := by
  have h := C1_nonretryable_midrun (α := Nat)
    (fun k => if k = 2 then .error { status := some 404 }
              else .error { status := some 503 })
    3 2 { status := some 404 } (by omega) (by omega) rfl (by decide)
    (by
      intro k hk1 hk2
      have hk : k = 1 := by omega
      subst hk
      exact ⟨{ status := some 503 }, rfl, by decide⟩)
  rw [h]
  rfl

end ScrappeTout

namespace ScrappeTout

/-- Exhausting all attempts with retryable failures: the loop reaches
the final attempt and wraps the last error with `totalAttempts`. -/
theorem retryAux_exhaust (op : Nat → Except JsError α) (N : Nat)
    (eN : JsError) (hN : op N = .error eN)
    (hall : ∀ k, ∃ e, op k = .error e ∧ isRetryableError e = true) :
    ∀ j attempt fuel, attempt + j = N → j < fuel →
      executeWithRetryAux op N attempt fuel =
        (List.range' attempt (j + 1),
         .error (wrapError eN ErrorTypeNETWORK
           { totalAttempts := some N,
             message := some ("Operation failed after ".toList ++
               (toString N).toList ++ " attempts".toList) })) := by
  intro j
  induction j with
  | zero =>
    intro attempt fuel h0 hf
    cases fuel with
    | zero => omega
    | succ f =>
      have hae : attempt = N := by omega
      subst hae
      simp only [executeWithRetryAux, hN]
      rw [if_pos (Nat.le_refl _)]
      simp [List.range']
  | succ j ih =>
    intro attempt fuel h0 hf
    cases fuel with
    | zero => omega
    | succ f =>
      obtain ⟨ek, hek, hretry⟩ := hall attempt
      simp only [executeWithRetryAux, hek]
      rw [if_neg (by omega), if_neg (by simp [hretry])]
      rw [ih (attempt + 1) f (by omega) (by omega)]
      simp [List.range'_succ]

/-- C2 (counterexample): an operation that always fails with a
retryable error that is *already* a `ScrapingError` (here
`code = "ETIMEDOUT"`) is invoked `maxAttempts = 2` times, but
`wrapError` returns it unchanged, so the raised error's context does
not carry `totalAttempts = 2` (its context is `none`). -/
theorem C2_counterexample :
    executeWithRetry (α := Nat)
      (fun _ => .error { code := some "ETIMEDOUT".toList,
                         isScraping := true }) 2 =
      ([1, 2], .error { code := some "ETIMEDOUT".toList,
                        isScraping := true }) := by
  rfl

/-- C2 (amended): for every `N ≥ 1` and every operation failing on
every invocation with a retryable error, `executeWithRetry` invokes the
operation exactly `N` times with attempt numbers `1..N` in order, then
raises the last error passed through `wrapError` with a context
carrying `totalAttempts = N`; the context actually carries
`totalAttempts = N` provided the last error was not already a
`ScrapingError` (second conjunct). -/
theorem C2_exhaust_all_attempts (op : Nat → Except JsError α) (N : Nat)
    (eN : JsError) (h1 : 1 ≤ N) (hN : op N = .error eN)
    (hall : ∀ k, ∃ e, op k = .error e ∧ isRetryableError e = true) :
    executeWithRetry op N =
      (List.range' 1 N,
       .error (wrapError eN ErrorTypeNETWORK
         { totalAttempts := some N,
           message := some ("Operation failed after ".toList ++
             (toString N).toList ++ " attempts".toList) })) ∧
    (eN.isScraping = false →
      (wrapError eN ErrorTypeNETWORK
        { totalAttempts := some N,
          message := some ("Operation failed after ".toList ++
            (toString N).toList ++ " attempts".toList) }).context =
        some { totalAttempts := some N,
               message := some ("Operation failed after ".toList ++
                 (toString N).toList ++ " attempts".toList) }) := by
  constructor
  · have h := retryAux_exhaust op N eN hN hall (N - 1) 1 N (by omega)
      (by omega)
    rw [executeWithRetry, h]
    congr 2
    omega
  · intro hs
    simp [wrapError, hs]

/-- C2 witness: always failing with status 503 under `maxAttempts = 2`. -/
theorem C2_exhaust_all_attempts_witness :
    executeWithRetry (α := Nat) (fun _ => .error { status := some 503 }) 2 =
      ([1, 2],
       .error (wrapError { status := some 503 } ErrorTypeNETWORK
         { totalAttempts := some 2,
           message := some ("Operation failed after ".toList ++
             (toString 2).toList ++ " attempts".toList) })) := by
  have h := (C2_exhaust_all_attempts (α := Nat)
    (fun _ => .error { status := some 503 }) 2 { status := some 503 }
    (by omega) rfl
    (fun _ => ⟨{ status := some 503 }, rfl, by decide⟩)).1
  rw [h]
  rfl

end ScrappeTout

namespace ScrappeTout

/-- C3: for every attempt ≥ 1, baseDelay > 0, maxDelay ≥ baseDelay and
jitter in [0.9, 1.1], the computed retry delay equals
`min (baseDelay * 2 ^ (attempt - 1) * jitter) maxDelay` and in
particular never exceeds `maxDelay`. -/
theorem C3_delay_capped (attempt : Nat) (baseDelay maxDelay jitter : ℚ)
    (h1 : 1 ≤ attempt) (hb : 0 < baseDelay) (hm : baseDelay ≤ maxDelay)
    (hj1 : (9 : ℚ) / 10 ≤ jitter) (hj2 : jitter ≤ (11 : ℚ) / 10) :
    calculateDelay attempt baseDelay maxDelay jitter =
      min (baseDelay * 2 ^ (attempt - 1) * jitter) maxDelay ∧
    calculateDelay attempt baseDelay maxDelay jitter ≤ maxDelay := by
  exact ⟨rfl, min_le_right _ _⟩

/-- C3 witness: attempt 3, base 1, cap 2, jitter 1. -/
theorem C3_delay_capped_witness :
    calculateDelay 3 1 2 1 = min ((1 : ℚ) * 2 ^ 2 * 1) 2 ∧
      calculateDelay 3 1 2 1 ≤ 2 := by
  have h := C3_delay_capped 3 1 2 1 (by norm_num) (by norm_num)
    (by norm_num) (by norm_num) (by norm_num)
  exact h

/-- C4 (counterexample): an error named `TimeoutError` that also
carries status 404 is *not* retryable — the status branch returns
before the timeout check — contradicting the claim that a
timeout-marked error is retryable even with a status outside the
retryable set. -/
theorem C4_counterexample :
    isRetryableError { name := "TimeoutError".toList, status := some 404 } =
      false := by
  rfl

/-- C4 (amended): `isRetryableError` returns false whenever
`context.nonRetryable` is set; otherwise it is true iff the error
carries a transient network fault code, or a truthy HTTP status inside
{408, 429, 500, 502, 503, 504}, or — only when no truthy status is
present — is named `TimeoutError`.  (In particular status 429 is
retryable and status 404 is not.) -/
theorem C4_isRetryable_characterization (e : JsError) :
    isRetryableError e = true ↔
      ctxNonRetryable e = false ∧
        ((codeTruthy e = true ∧
           e.code.getD [] ∈ ["ETIMEDOUT".toList, "ENOTFOUND".toList,
             "ECONNRESET".toList, "ECONNREFUSED".toList]) ∨
         (statusTruthy e = true ∧
           e.status.getD 0 ∈ ([408, 429, 500, 502, 503, 504] : List Nat)) ∨
         (statusTruthy e = false ∧ e.name = "TimeoutError".toList)) := by
  unfold isRetryableError
  split_ifs with h1 h2 h3 h4 <;>
    simp_all [List.elem_iff, List.contains]

end ScrappeTout

namespace ScrappeTout

/-! ## Theorems: TOC deduplication (C5, C6, C10) -/

/-- one unfolding step of the TOC scan. -/
theorem tocAux_cons (l : List Char) (rest : List (List Char))
    (inToc seen : Bool) (acc : List (List Char)) :
    removeDuplicateTOCAux (l :: rest) inToc seen acc =
      if isTocItem (jsTrim l) then
        removeDuplicateTOCAux rest true seen (if inToc then acc ++ [l] else [l])
      else if inToc then
        if !seen && acc.length < 30 && decide (2 < acc.length) then
          acc ++ l :: removeDuplicateTOCAux rest false true []
        else l :: removeDuplicateTOCAux rest false seen []
      else l :: removeDuplicateTOCAux rest false seen acc := rfl

/-- Non-TOC lines before any run pass through unchanged. -/
theorem tocAux_nontoc_head (pre : List (List Char)) :
    ∀ rest seen, (∀ l ∈ pre, isTocItem (jsTrim l) = false) →
      removeDuplicateTOCAux (pre ++ rest) false seen [] =
        pre ++ removeDuplicateTOCAux rest false seen [] := by
  induction pre with
  | nil => intro rest seen _; rfl
  | cons l pre ih =>
    intro rest seen hpre
    have hl : isTocItem (jsTrim l) = false := hpre l (by simp)
    rw [List.cons_append, tocAux_cons, hl]
    simp only [Bool.false_eq_true, if_false]
    rw [ih rest seen (fun x hx => hpre x (by simp [hx])), List.cons_append]

/-- An open run whose total size is in range, closed by a non-TOC line
with the seen-flag still unset, is flushed in place and sets the flag. -/
theorem tocAux_block_keep (b2 : List (List Char)) :
    ∀ acc t suf, (∀ l ∈ b2, isTocItem (jsTrim l) = true) →
      isTocItem (jsTrim t) = false →
      2 < (acc ++ b2).length → (acc ++ b2).length < 30 →
      removeDuplicateTOCAux (b2 ++ t :: suf) true false acc =
        (acc ++ b2) ++ t :: removeDuplicateTOCAux suf false true [] := by
  induction b2 with
  | nil =>
    intro acc t suf _ ht h2 h30
    simp only [List.append_nil] at h2 h30 ⊢
    rw [List.nil_append, tocAux_cons, ht]
    simp only [Bool.false_eq_true, if_false, if_true]
    rw [if_pos (by simp [h2, h30])]
  | cons b b2 ih =>
    intro acc t suf hb ht h2 h30
    have hbt : isTocItem (jsTrim b) = true := hb b (by simp)
    rw [List.cons_append, tocAux_cons, hbt]
    simp only [if_true]
    rw [ih (acc ++ [b]) t suf (fun x hx => hb x (by simp [hx])) ht
      (by simpa using h2) (by simpa using h30)]
    simp

/-- An open run that is already-seen or out of range is dropped in
full when closed by a non-TOC line; the seen-flag is unchanged. -/
theorem tocAux_block_drop (b2 : List (List Char)) :
    ∀ acc t suf seen, (∀ l ∈ b2, isTocItem (jsTrim l) = true) →
      isTocItem (jsTrim t) = false →
      (seen = true ∨ ¬(2 < (acc ++ b2).length ∧ (acc ++ b2).length < 30)) →
      removeDuplicateTOCAux (b2 ++ t :: suf) true seen acc =
        t :: removeDuplicateTOCAux suf false seen [] := by
  induction b2 with
  | nil =>
    intro acc t suf seen _ ht hfail
    simp only [List.append_nil] at hfail
    rw [List.nil_append, tocAux_cons, ht]
    simp only [Bool.false_eq_true, if_false, if_true]
    rw [if_neg]
    rcases hfail with h | h
    · simp [h]
    · rcases Nat.lt_or_ge acc.length 30 with h30 | h30
      · have hno : ¬(2 < acc.length) := fun hc => h ⟨hc, h30⟩
        simp [hno]
      · simp [Nat.not_lt.mpr h30]
  | cons b b2 ih =>
    intro acc t suf seen hb ht hfail
    have hbt : isTocItem (jsTrim b) = true := hb b (by simp)
    rw [List.cons_append, tocAux_cons, hbt]
    simp only [if_true]
    rw [ih (acc ++ [b]) t suf seen (fun x hx => hb x (by simp [hx])) ht]
    rcases hfail with h | h
    · exact Or.inl h
    · exact Or.inr (by simpa using h)

/-- A run still open at the end of the input is never flushed. -/
theorem tocAux_drop_tail (b2 : List (List Char)) :
    ∀ acc seen, (∀ l ∈ b2, isTocItem (jsTrim l) = true) →
      removeDuplicateTOCAux b2 true seen acc = [] := by
  induction b2 with
  | nil => intro acc seen _; rfl
  | cons b b2 ih =>
    intro acc seen hb
    have hbt : isTocItem (jsTrim b) = true := hb b (by simp)
    rw [tocAux_cons, hbt]
    simp only [if_true]
    exact ih _ seen (fun x hx => hb x (by simp [hx]))

/-- Once the seen-flag is set, the scan deletes every TOC-item line and
keeps every other line: it acts as a filter. -/
theorem tocAux_seen_filter (ls : List (List Char)) :
    ∀ inToc acc, removeDuplicateTOCAux ls inToc true acc =
      ls.filter (fun l => !isTocItem (jsTrim l)) := by
  induction ls with
  | nil => intro inToc acc; cases inToc <;> rfl
  | cons l ls ih =>
    intro inToc acc
    rw [tocAux_cons]
    cases hl : isTocItem (jsTrim l) with
    | true =>
      simp only [if_true]
      rw [ih true _]
      simp [List.filter_cons, hl]
    | false =>
      simp only [Bool.false_eq_true, if_false]
      cases inToc with
      | false =>
        simp only [Bool.false_eq_true, if_false]
        rw [ih false acc]
        simp [List.filter_cons, hl]
      | true =>
        simp only [if_true]
        rw [if_neg (by simp), ih false []]
        simp [List.filter_cons, hl]

end ScrappeTout


namespace ScrappeTout

/-- C5 (counterexample): a document whose first (and only) in-range
TOC block — 3 items — sits at the very end of the input loses that
block entirely: the run is still open when the scan ends and is never
flushed, contradicting the claim that the first in-range run is always
retained in place. -/
theorem C5_counterexample :
    removeDuplicateTOC "x\n- [A](#a)\n- [B](#b)\n- [C](#c)".toList =
      "x".toList := by
  rfl

/-- C5 (amended): provided at least one non-TOC-item line follows it,
the first contiguous TOC-item run with item count strictly between 2
and 30 is retained verbatim in its original position, every subsequent
TOC-item line is deleted, and all non-TOC lines pass through unchanged
(a first in-range run that is still open at end of input is instead
deleted, see C10). -/
theorem C5_first_valid_toc_survives (pre block suf : List (List Char))
    (t : List Char)
    (hpre : ∀ l ∈ pre, isTocItem (jsTrim l) = false)
    (hblock : ∀ l ∈ block, isTocItem (jsTrim l) = true)
    (h2 : 2 < block.length) (h30 : block.length < 30)
    (ht : isTocItem (jsTrim t) = false) :
    removeDuplicateTOCAux (pre ++ block ++ t :: suf) false false [] =
      pre ++ block ++ t :: suf.filter (fun l => !isTocItem (jsTrim l)) := by
  rw [List.append_assoc,
    tocAux_nontoc_head pre (block ++ t :: suf) false hpre]
  cases block with
  | nil => simp at h2
  | cons b b2 =>
    have hbt := hblock b (by simp)
    rw [List.cons_append, tocAux_cons, hbt]
    simp only [if_true, Bool.false_eq_true, if_false]
    rw [tocAux_block_keep b2 [b] t suf (fun x hx => hblock x (by simp [hx]))
      ht (by simpa using h2) (by simpa using h30)]
    rw [tocAux_seen_filter]
    simp

/-- C5 witness: two identical 5-item TOC blocks separated by body
text — the output keeps the first block in place and all body text,
and deletes the duplicate block. -/
theorem C5_first_valid_toc_survives_witness :
    removeDuplicateTOCAux
      (["intro".toList] ++
        ["- [A](#a)".toList, "- [B](#b)".toList, "- [C](#c)".toList,
         "- [D](#d)".toList, "- [E](#e)".toList] ++
        "".toList ::
          (["body".toList] ++
           ["- [A](#a)".toList, "- [B](#b)".toList, "- [C](#c)".toList,
            "- [D](#d)".toList, "- [E](#e)".toList] ++
           ["".toList, "end".toList])) false false [] =
      ["intro".toList] ++
        ["- [A](#a)".toList, "- [B](#b)".toList, "- [C](#c)".toList,
         "- [D](#d)".toList, "- [E](#e)".toList] ++
        "".toList :: ["body".toList, "".toList, "end".toList] := by
  rw [C5_first_valid_toc_survives
    ["intro".toList]
    ["- [A](#a)".toList, "- [B](#b)".toList, "- [C](#c)".toList,
     "- [D](#d)".toList, "- [E](#e)".toList]
    (["body".toList] ++
     ["- [A](#a)".toList, "- [B](#b)".toList, "- [C](#c)".toList,
      "- [D](#d)".toList, "- [E](#e)".toList] ++
     ["".toList, "end".toList])
    "".toList
    (by decide) (by decide) (by decide) (by decide) (by decide)]
  decide

end ScrappeTout

namespace ScrappeTout

/-- C6 (counterexample): a TOC-shaped block of exactly 1 item does
*not* pass through unchanged — it is deleted (the claim says
out-of-range blocks are left untouched). -/
theorem C6_counterexample :
    removeDuplicateTOC "x\n- [A](#a)\ny".toList = "x\ny".toList := by
  rfl

/-- C6 (amended): a TOC-shaped block whose item count is out of range
(not strictly between 2 and 30 — e.g. exactly 1 item or exactly 35
items) is not adopted as the surviving TOC: the seen-flag stays unset,
so a later in-range block can still be adopted — but its lines are
deleted from the output, not passed through. -/
theorem C6_out_of_range_block_deleted (pre block suf : List (List Char))
    (t : List Char)
    (hpre : ∀ l ∈ pre, isTocItem (jsTrim l) = false)
    (hblock : ∀ l ∈ block, isTocItem (jsTrim l) = true)
    (hne : block ≠ [])
    (hout : ¬(2 < block.length ∧ block.length < 30))
    (ht : isTocItem (jsTrim t) = false) :
    removeDuplicateTOCAux (pre ++ block ++ t :: suf) false false [] =
      pre ++ t :: removeDuplicateTOCAux suf false false [] := by
  rw [List.append_assoc,
    tocAux_nontoc_head pre (block ++ t :: suf) false hpre]
  cases block with
  | nil => exact absurd rfl hne
  | cons b b2 =>
    have hbt := hblock b (by simp)
    rw [List.cons_append, tocAux_cons, hbt]
    simp only [if_true, Bool.false_eq_true, if_false]
    rw [tocAux_block_drop b2 [b] t suf false
      (fun x hx => hblock x (by simp [hx])) ht
      (Or.inr (by simpa using hout))]

/-- C6 witness: a 1-item TOC-shaped block between plain lines is
deleted while the seen-flag stays unset. -/
theorem C6_out_of_range_block_deleted_witness :
    removeDuplicateTOCAux
      (["x".toList] ++ ["- [A](#a)".toList] ++ "y".toList :: []) 
      false false [] =
      ["x".toList] ++ "y".toList :: removeDuplicateTOCAux [] false false [] := by
  exact C6_out_of_range_block_deleted ["x".toList] ["- [A](#a)".toList] []
    "y".toList (by decide) (by decide) (by decide) (by decide) (by decide)

/-- C10: a TOC-item run still open when the scan reaches the end of
the input is dropped from the output entirely — even a first
TOC-shaped run of any size (in particular one with item count strictly
between 2 and 30) is deleted when no non-TOC-item line follows it. -/
theorem C10_trailing_open_run_dropped (pre block : List (List Char))
    (hpre : ∀ l ∈ pre, isTocItem (jsTrim l) = false)
    (hblock : ∀ l ∈ block, isTocItem (jsTrim l) = true)
    (hne : block ≠ []) :
    removeDuplicateTOCAux (pre ++ block) false false [] = pre := by
  rw [tocAux_nontoc_head pre block false hpre]
  cases block with
  | nil => exact absurd rfl hne
  | cons b b2 =>
    have hbt := hblock b (by simp)
    rw [tocAux_cons, hbt]
    simp only [if_true, Bool.false_eq_true, if_false]
    rw [tocAux_drop_tail b2 [b] false (fun x hx => hblock x (by simp [hx]))]
    simp

/-- C10 witness: a plain line followed by a trailing 3-item (in-range)
TOC run — only the plain line survives. -/
theorem C10_trailing_open_run_dropped_witness :
    removeDuplicateTOCAux
      (["x".toList] ++
       ["- [A](#a)".toList, "- [B](#b)".toList, "- [C](#c)".toList])
      false false [] = ["x".toList] := by
  exact C10_trailing_open_run_dropped ["x".toList]
    ["- [A](#a)".toList, "- [B](#b)".toList, "- [C](#c)".toList]
    (by decide) (by decide) (by decide)

end ScrappeTout

namespace ScrappeTout

/-! ## Theorems: navigation menu removal (C7) -/

/-- one unfolding step of the navigation scan. -/
theorem navAux_cons (l : List Char) (rest : List (List Char)) (m : Nat) :
    navAux (l :: rest) m =
      (if hasNavKeyword (jsTrim l) then navAux rest m
       else if isMenuSectionHeader (jsTrim l) then navAux rest 2
       else if startsWithDash (jsTrim l) &&
           (match rest with
            | [] => false
            | n :: _ => startsWithDash (jsTrim n)) &&
           isMenuList ((l :: rest).take 20) then
         navAux rest 1
       else if m = 1 then
         if !startsWithDash (jsTrim l) && !(jsTrim l).isEmpty then
           if navDropLine (jsTrim l) then navAux rest 0
           else l :: navAux rest 0
         else navAux rest 1
       else if m = 2 then
         if (jsTrim l).isEmpty &&
             (match rest with
              | [] => false
              | n :: _ => !startsWithDash (jsTrim n)) then
           navAux rest 0
         else navAux rest 2
       else if navDropLine (jsTrim l) then navAux rest m
       else l :: navAux rest m) := rfl

/-- a line whose trimmed form starts with a dash can never equal one of
the single-word menu section headers. -/
theorem dash_not_header (t : List Char) (h : startsWithDash t = true) :
    isMenuSectionHeader t = false := by
  cases t with
  | nil => simp [startsWithDash] at h
  | cons c rest =>
    have hc : c = '-' := by
      have : (decide (c = '-')) = true := h
      exact of_decide_eq_true this
    subst hc
    simp [isMenuSectionHeader, lowerStr, show Char.toLower '-' = '-' from rfl]

/-- unfolding `hasSub` on a nonempty string. -/
theorem hasSub_cons (c : Char) (s pat : List Char) :
    hasSub (c :: s) pat = (pat.isPrefixOf (c :: s) || hasSub s pat) := by
  rw [hasSub.eq_def]
  by_cases h : pat.isPrefixOf (c :: s) = true <;> simp [h]

/-- the empty pattern is a substring of everything. -/
theorem hasSub_nil_pat (t : List Char) : hasSub t [] = true := by
  rw [hasSub.eq_def]
  simp [List.isPrefixOf]

/-- Containment (`includes`) is preserved by appending on the right. -/
theorem hasSub_mono (s t pat : List Char) (h : hasSub s pat = true) :
    hasSub (s ++ t) pat = true := by
  induction s with
  | nil =>
    have hp : pat = [] := by
      cases pat with
      | nil => rfl
      | cons c cs => simp [hasSub, List.isPrefixOf] at h
    subst hp
    exact hasSub_nil_pat _
  | cons c rest ih =>
    rw [hasSub_cons] at h
    rw [List.cons_append, hasSub_cons]
    cases (Bool.or_eq_true _ _).mp h with
    | inl hpre =>
      refine (Bool.or_eq_true _ _).mpr (Or.inl ?_)
      rw [ List.isPrefixOf_iff_prefix] at hpre ⊢
      rw [← List.cons_append]
      exact hpre.trans (List.prefix_append _ _)
    | inr hsub =>
      exact (Bool.or_eq_true _ _).mpr (Or.inr (ih hsub))

/-- unfolding `joinLines` on two or more lines. -/
theorem joinLines_cons_cons (x y : List Char) (ls : List (List Char)) :
    joinLines (x :: y :: ls) = x ++ '\n' :: joinLines (y :: ls) := rfl

/-- joining distributes over appending nonempty line lists. -/
theorem joinLines_append (xs ys : List (List Char)) (hy : ys ≠ []) :
    xs ≠ [] → joinLines (xs ++ ys) = joinLines xs ++ '\n' :: joinLines ys := by
  induction xs with
  | nil => intro hx; exact absurd rfl hx
  | cons x xs ih =>
    intro _
    cases xs with
    | nil =>
      cases ys with
      | nil => exact absurd rfl hy
      | cons y ys2 => simp [joinLines_cons_cons, joinLines]
    | cons x2 xs2 =>
      rw [show (x :: x2 :: xs2) ++ ys = x :: ((x2 :: xs2) ++ ys) from rfl]
      rw [show (x2 :: xs2) ++ ys = x2 :: (xs2 ++ ys) from rfl]
      rw [joinLines_cons_cons x x2 (xs2 ++ ys)]
      have hstep := ih (by simp)
      rw [show (x2 :: xs2) ++ ys = x2 :: (xs2 ++ ys) from rfl] at hstep
      rw [hstep, joinLines_cons_cons]
      simp

end ScrappeTout

namespace ScrappeTout

/-- entering menu-list mode: a keyword-free dash line followed by
another dash line, whose lookahead window fires the heuristic, is
dropped and the scan enters mode 1 — from any prior mode. -/
theorem navAux_enter_menu (l n : List Char) (rest : List (List Char))
    (m : Nat) (hkw : hasNavKeyword (jsTrim l) = false)
    (hd : startsWithDash (jsTrim l) = true)
    (hn : startsWithDash (jsTrim n) = true)
    (hw : isMenuList ((l :: n :: rest).take 20) = true) :
    navAux (l :: n :: rest) m = navAux (n :: rest) 1 := by
  rw [navAux_cons, hkw]
  simp only [Bool.false_eq_true, if_false]
  rw [dash_not_header _ hd]
  simp only [Bool.false_eq_true, if_false]
  rw [if_pos (by simp only [hd, hn, hw, Bool.and_true, Bool.true_and])]

/-- inside menu-list mode every dash line is dropped and the mode
stays 1 (whether or not the line carries a keyword or re-fires the
heuristic). -/
theorem navAux_dash_in_menu (l : List Char) (rest : List (List Char))
    (hd : startsWithDash (jsTrim l) = true) :
    navAux (l :: rest) 1 = navAux rest 1 := by
  rw [navAux_cons]
  by_cases hkw : hasNavKeyword (jsTrim l) = true
  · rw [if_pos hkw]
  · rw [if_neg hkw, if_neg (by rw [dash_not_header _ hd]; simp)]
    by_cases hw : (startsWithDash (jsTrim l) &&
        (match rest with
         | [] => false
         | n :: _ => startsWithDash (jsTrim n)) &&
        isMenuList ((l :: rest).take 20)) = true
    · rw [if_pos hw]
    · rw [if_neg hw, if_pos rfl, if_neg (by simp [hd])]

/-- leaving menu-list mode: the first non-empty non-dash line that
matches no drop rule is retained and resets the mode to 0. -/
theorem navAux_exit_menu (l : List Char) (rest : List (List Char))
    (hkw : hasNavKeyword (jsTrim l) = false)
    (hhd : isMenuSectionHeader (jsTrim l) = false)
    (hd : startsWithDash (jsTrim l) = false)
    (hne : (jsTrim l).isEmpty = false)
    (hdrop : navDropLine (jsTrim l) = false) :
    navAux (l :: rest) 1 = l :: navAux rest 0 := by
  rw [navAux_cons, if_neg (by simp [hkw]), if_neg (by simp [hhd]),
    if_neg (by simp [hd]), if_pos rfl, if_pos (by simp [hd, hne]),
    if_neg (by simp [hdrop])]

end ScrappeTout

namespace ScrappeTout

/-- if the lowercased concatenation of the first four lines contains
both "logo" and "navigate to", the 20-line lookahead window starting at
the first of them fires the menu heuristic. -/
theorem isMenuList_of_first4 (d1 d2 d3 d4 p : List Char)
    (suf : List (List Char))
    (hlogo : hasSub (lowerStr (joinLines [d1, d2, d3, d4]))
      "logo".toList = true)
    (hnav : hasSub (lowerStr (joinLines [d1, d2, d3, d4]))
      "navigate to".toList = true) :
    isMenuList ((d1 :: d2 :: d3 :: d4 :: p :: suf).take 20) = true := by
  have htake : (d1 :: d2 :: d3 :: d4 :: p :: suf).take 20 =
      [d1, d2, d3, d4] ++ (p :: suf.take 15) := rfl
  rw [htake, isMenuList,
    joinLines_append [d1, d2, d3, d4] (p :: suf.take 15) (by simp) (by simp)]
  have hdist : lowerStr (joinLines [d1, d2, d3, d4] ++
      '\n' :: joinLines (p :: suf.take 15)) =
      lowerStr (joinLines [d1, d2, d3, d4]) ++
        lowerStr ('\n' :: joinLines (p :: suf.take 15)) := by
    simp [lowerStr]
  rw [hdist]
  rw [hasSub_mono _ _ _ hlogo, hasSub_mono _ _ _ hnav]
  simp

/-- C7 (counterexample): when the first dash line of the run itself
contains a navigation keyword ("get started"), it is dropped by the
keyword rule *before* the menu-list detection can run, and the
remaining three dash lines are retained — the claim that all four are
always dropped fails. -/
theorem C7_counterexample :
    removeNavigationMenus
      "- get started logo\n- navigate to y\n- a\n- b\nend line".toList =
      "- navigate to y\n- a\n- b\nend line".toList := by
  rfl

/-- C7 (amended): given four contiguous dash-prefixed lines whose
lowercased concatenation contains both "logo" and "navigate to",
followed by a non-empty line that does not start with a dash and
matches no other drop rule, the scanner — from any mode — drops all
four dash lines and retains the following plain line, resetting to
mode 0; provided the first dash line does not itself match the
keyword rule (which runs first and would bypass the detection).  The
`hnl` hypothesis records that the five lines come from a newline
split, the scanner's only call site. -/
theorem C7_menu_run_dropped (d1 d2 d3 d4 p : List Char)
    (suf : List (List Char)) (m : Nat)
    (hnl : (d1 :: d2 :: d3 :: d4 :: [p]).all
      (fun l => l.all (fun c => c ≠ '\n')) = true)
    (hd1 : startsWithDash (jsTrim d1) = true)
    (hd2 : startsWithDash (jsTrim d2) = true)
    (hd3 : startsWithDash (jsTrim d3) = true)
    (hd4 : startsWithDash (jsTrim d4) = true)
    (hkw1 : hasNavKeyword (jsTrim d1) = false)
    (hlogo : hasSub (lowerStr (joinLines [d1, d2, d3, d4]))
      "logo".toList = true)
    (hnav : hasSub (lowerStr (joinLines [d1, d2, d3, d4]))
      "navigate to".toList = true)
    (hpkw : hasNavKeyword (jsTrim p) = false)
    (hphd : isMenuSectionHeader (jsTrim p) = false)
    (hpd : startsWithDash (jsTrim p) = false)
    (hpne : (jsTrim p).isEmpty = false)
    (hpdrop : navDropLine (jsTrim p) = false) :
    navAux (d1 :: d2 :: d3 :: d4 :: p :: suf) m = p :: navAux suf 0 := by
  rw [navAux_enter_menu d1 d2 (d3 :: d4 :: p :: suf) m hkw1 hd1 hd2
      (isMenuList_of_first4 d1 d2 d3 d4 p suf hlogo hnav),
    navAux_dash_in_menu d2 _ hd2, navAux_dash_in_menu d3 _ hd3,
    navAux_dash_in_menu d4 _ hd4]
  exact navAux_exit_menu p suf hpkw hphd hpd hpne hpdrop

/-- C7 witness: a concrete 4-line menu run followed by a plain line. -/
theorem C7_menu_run_dropped_witness :
    navAux ["- Brand logo".toList, "- navigate to home".toList,
      "- a".toList, "- b".toList, "end line".toList] 0 =
      ["end line".toList] := by
  rw [C7_menu_run_dropped "- Brand logo".toList "- navigate to home".toList
    "- a".toList "- b".toList "end line".toList [] 0
    (by decide) (by decide) (by decide) (by decide) (by decide)
    (by decide) (by decide) (by decide) (by decide) (by decide)
    (by decide) (by decide) (by decide)]
  rfl

end ScrappeTout

namespace ScrappeTout

/-! ## Theorems: whitespace collapse (C9) -/

/-- a non-newline head does not contribute to a triple-newline run. -/
theorem hasTriple_cons_nonl (c : Char) (hc : c ≠ '\n')
    (t : List Char) : hasTripleNewline (c :: t) = hasTripleNewline t := by
  match t with
  | [] => simp [hasTripleNewline]
  | [x] => simp [hasTripleNewline]
  | x :: y :: r => simp [hasTripleNewline, decide_eq_false hc]

/-- a single newline before a non-newline character does not create a
triple. -/
theorem hasTriple_nl_cons (c : Char) (hc : c ≠ '\n')
    (t : List Char) :
    hasTripleNewline ('\n' :: c :: t) = hasTripleNewline (c :: t) := by
  match t with
  | [] => simp [hasTripleNewline]
  | x :: r => simp [hasTripleNewline, decide_eq_false hc]

/-- the collapse scan never emits three consecutive newlines. -/
theorem collapseAux_no_triple (s : List Char) :
    ∀ k, hasTripleNewline (collapseAux k s) = false := by
  induction s with
  | nil =>
    intro k
    rw [collapseAux]
    have h3 : min k 2 = 0 ∨ min k 2 = 1 ∨ min k 2 = 2 := by omega
    rcases h3 with h | h | h <;> rw [h] <;> rfl
  | cons c rest ih =>
    intro k
    rw [collapseAux]
    by_cases hc : c = '\n'
    · rw [if_pos (by simp [hc])]
      exact ih (k + 1)
    · rw [if_neg (by simp [hc])]
      have h3 : min k 2 = 0 ∨ min k 2 = 1 ∨ min k 2 = 2 := by omega
      rcases h3 with h | h | h <;> rw [h] <;> simp only [List.replicate,
        List.nil_append, List.cons_append]
      · rw [hasTriple_cons_nonl c hc, ih 0]
      · rw [hasTriple_nl_cons c hc, hasTriple_cons_nonl c hc, ih 0]
      · rw [show ('\n' :: '\n' :: c :: collapseAux 0 rest) =
          '\n' :: ('\n' :: c :: collapseAux 0 rest) from rfl]
        rw [hasTripleNewline]
        simp only [decide_eq_false hc, Bool.and_false, Bool.false_and,
          Bool.false_or]
        rw [hasTriple_nl_cons c hc, hasTriple_cons_nonl c hc, ih 0]

/-- C9 (counterexample): `normalize "a\n \n\nb"` yields `"a\n\n\nb"`,
which contains two consecutive blank lines — the whitespace-only line
is emptied by the per-line trim *after* the newline collapse has run. -/
theorem C9_counterexample :
    hasTripleNewline (normalize "a\n \n\nb".toList) = true := by
  rfl

/-- C9 (amended): the newline collapse of `cleanWhitespace` itself
never leaves three consecutive newlines (two consecutive blank lines);
but it runs before the per-line trailing-whitespace trim, which can
turn whitespace-only lines into blank lines, so the final output of
`normalize` can still contain consecutive blank lines (see the
counterexample). -/
theorem C9_collapse_no_triple (s : List Char) :
    hasTripleNewline (collapseNewlines s) = false :=
  collapseAux_no_triple s 0

end ScrappeTout

namespace ScrappeTout

/-! ## Theorems: pipeline idempotence (C8) -/

theorem splitLines_ne_nil (s : List Char) : splitLines s ≠ [] := by
  cases s with
  | nil => simp [splitLines]
  | cons c rest =>
    rw [splitLines]
    by_cases hc : c = '\n'
    · simp [hc]
    · rw [if_neg hc]
      cases splitLines rest <;> simp

theorem joinLines_splitLines (s : List Char) :
    joinLines (splitLines s) = s := by
  induction s with
  | nil => rfl
  | cons c rest ih =>
    rw [splitLines]
    obtain ⟨l, ls, hls⟩ : ∃ l ls, splitLines rest = l :: ls := by
      cases h : splitLines rest with
      | nil => exact absurd h (splitLines_ne_nil rest)
      | cons l ls => exact ⟨l, ls, rfl⟩
    by_cases hc : c = '\n'
    · rw [if_pos hc, hls, joinLines_cons_cons, List.nil_append, ← hls, ih,
        hc]
    · rw [if_neg hc, hls]
      rw [hls] at ih
      cases ls with
      | nil =>
        simp only [joinLines] at ih ⊢
        rw [ih]
      | cons l2 ls2 =>
        rw [joinLines_cons_cons] at ih ⊢
        rw [List.cons_append, ih]

end ScrappeTout

namespace ScrappeTout

/-- a scan with no match anywhere is the identity. -/
theorem jsReplaceAll_id (tryMatch : List Char → Option (List Char × List Char))
    (s : List Char) (h : noMatchAt tryMatch s = true) :
    ∀ fuel, jsReplaceAll tryMatch fuel s = s := by
  induction s with
  | nil => intro fuel; cases fuel <;> rfl
  | cons c rest ih =>
    intro fuel
    simp only [noMatchAt, suffixesAll, Bool.and_eq_true] at h
    obtain ⟨hhead, htail⟩ := h
    cases fuel with
    | zero => rfl
    | succ f =>
      rw [jsReplaceAll]
      have hnone : tryMatch (c :: rest) = none := by
        cases hm : tryMatch (c :: rest) with
        | none => rfl
        | some v => rw [hm] at hhead; simp at hhead
      rw [hnone]
      rw [ih htail f]

/-- A `jsReplace` with no match anywhere is the identity. -/
theorem jsReplace_id (tryMatch : List Char → Option (List Char × List Char))
    (s : List Char) (h : noMatchAt tryMatch s = true) :
    jsReplace tryMatch s = s :=
  jsReplaceAll_id tryMatch s h s.length

/-- the TOC scan is the identity on TOC-free line lists. -/
theorem tocAux_id (ls : List (List Char)) (seen : Bool)
    (h : ∀ l ∈ ls, isTocItem (jsTrim l) = false) :
    removeDuplicateTOCAux ls false seen [] = ls := by
  have h2 := tocAux_nontoc_head ls [] seen h
  rw [show removeDuplicateTOCAux ([] : List (List Char)) false seen [] = []
    from rfl] at h2
  simpa using h2

/-- the navigation scan in mode 0 keeps every inert line when no
lookahead window fires the menu heuristic. -/
theorem navAux_id (ls : List (List Char))
    (hw : windowsFree ls = true)
    (hl : ∀ l ∈ ls, hasNavKeyword (jsTrim l) = false ∧
      isMenuSectionHeader (jsTrim l) = false ∧
      navDropLine (jsTrim l) = false) :
    navAux ls 0 = ls := by
  induction ls with
  | nil => rfl
  | cons l rest ih =>
    simp only [windowsFree, Bool.and_eq_true] at hw
    obtain ⟨hwin, hwrest⟩ := hw
    obtain ⟨hkw, hhd, hdrop⟩ := hl l (by simp)
    rw [Bool.not_eq_true'] at hwin
    rw [navAux_cons, if_neg (by simp [hkw]), if_neg (by simp [hhd]),
      if_neg (by rw [hwin]; simp),
      if_neg (by omega), if_neg (by omega), if_neg (by simp [hdrop])]
    rw [ih hwrest (fun x hx => hl x (by simp [hx]))]

/-- the newline collapse is the identity on triple-free text. -/
theorem collapseAux_id (s : List Char) :
    ∀ k, k ≤ 2 →
      hasTripleNewline (List.replicate k '\n' ++ s) = false →
      collapseAux k s = List.replicate k '\n' ++ s := by
  induction s with
  | nil =>
    intro k hk _
    rw [collapseAux, Nat.min_eq_left hk, List.append_nil]
  | cons c rest ih =>
    intro k hk hs
    rw [collapseAux]
    by_cases hc : c = '\n'
    · subst hc
      have hrepl : List.replicate (k + 1) '\n' ++ rest =
          List.replicate k '\n' ++ '\n' :: rest := by
        rw [List.replicate_succ']
        simp
      have hk1 : k + 1 ≤ 2 := by
        by_contra hgt
        have hk3 : k = 2 := by omega
        subst hk3
        simp [List.replicate, hasTripleNewline] at hs
      rw [if_pos (by simp), ih (k + 1) hk1 (by rw [hrepl]; exact hs),
        hrepl]
    · have hrest : hasTripleNewline rest = false := by
        have h3 : k = 0 ∨ k = 1 ∨ k = 2 := by omega
        rcases h3 with h | h | h <;> subst h <;>
          simp only [List.replicate, List.nil_append, List.cons_append]
            at hs
        · rw [hasTriple_cons_nonl c hc] at hs
          exact hs
        · rw [hasTriple_nl_cons c hc, hasTriple_cons_nonl c hc] at hs
          exact hs
        · rw [show ('\n' :: '\n' :: c :: rest) =
            '\n' :: ('\n' :: c :: rest) from rfl, hasTripleNewline] at hs
          simp only [decide_eq_false hc, Bool.and_false, Bool.false_and,
            Bool.false_or] at hs
          rw [hasTriple_nl_cons c hc, hasTriple_cons_nonl c hc] at hs
          exact hs
      rw [if_neg (by simp [hc]), Nat.min_eq_left hk,
        ih 0 (by omega) (by simpa using hrest)]
      simp

end ScrappeTout

namespace ScrappeTout

/-- unpacking a `cleanLine` fact. -/
theorem cleanLine_spec (l : List Char) (h : cleanLine l = true) :
    isHeaderNavLink (jsTrim l) = false ∧ isBrandingImage (jsTrim l) = false ∧
    isTocItem (jsTrim l) = false ∧ hasNavKeyword (jsTrim l) = false ∧
    isMenuSectionHeader (jsTrim l) = false ∧
    navDropLine (jsTrim l) = false ∧ jsTrimEnd l = l := by
  simp only [cleanLine, Bool.and_eq_true, Bool.not_eq_true',
    decide_eq_true_eq, and_assoc] at h
  exact h

/-- pass 0 is the identity on documents of inert lines. -/
theorem removeHeaderNav_id (s : List Char)
    (h : (splitLines s).all cleanLine = true) :
    removeHeaderNav s = s := by
  rw [removeHeaderNav, List.filter_eq_self.mpr, joinLines_splitLines]
  intro l hl
  obtain ⟨h1, h2, _⟩ :=
    cleanLine_spec l ((List.all_eq_true.mp h) l hl)
  simp [h1, h2]

/-- pass 0.5 is the identity on TOC-free documents. -/
theorem removeDuplicateTOC_id (s : List Char)
    (h : (splitLines s).all cleanLine = true) :
    removeDuplicateTOC s = s := by
  rw [removeDuplicateTOC, tocAux_id _ false, joinLines_splitLines]
  intro l hl
  obtain ⟨_, _, h3, _⟩ :=
    cleanLine_spec l ((List.all_eq_true.mp h) l hl)
  exact h3

/-- pass 1 is the identity when none of its replaces matches. -/
theorem convertDefinitionLists_id (s : List Char)
    (h1 : noMatchAt tryDtDd s = true) (h2 : noMatchAt tryDt s = true)
    (h3 : noMatchAt tryDd s = true) (h4 : noMatchAt tryDl s = true)
    (h5 : noMatchAt tryColonBlank s = true) :
    convertDefinitionLists s = s := by
  rw [convertDefinitionLists]
  rw [jsReplace_id tryDtDd s h1, jsReplace_id tryDt s h2,
    jsReplace_id tryDd s h3, jsReplace_id tryDl s h4,
    jsReplace_id tryColonBlank s h5]

/-- pass 2 is the identity when none of its replaces matches. -/
theorem stripRemainingHtml_id (s : List Char)
    (hpair : (["script", "style", "nav", "footer", "header", "aside",
      "navlink"].map String.toList).all
        (fun tag => noMatchAt (tryTagPair tag) s) = true)
    (himg : noMatchAt (tryVoidTag "img".toList) s = true)
    (hbr : noMatchAt (tryBreakTag "br".toList) s = true)
    (hhr : noMatchAt (tryBreakTag "hr".toList) s = true)
    (hinput : noMatchAt (tryVoidTag "input".toList) s = true)
    (hbutton : noMatchAt (tryTagPair "button".toList) s = true)
    (hcatch : noMatchAt tryCatchAll s = true) :
    stripRemainingHtml s = s := by
  have hp := List.all_eq_true.mp hpair
  rw [stripRemainingHtml]
  simp only [List.map_cons, List.map_nil, List.foldl_cons, List.foldl_nil]
  rw [jsReplace_id _ s (hp _ (by simp)), jsReplace_id _ s (hp _ (by simp)),
    jsReplace_id _ s (hp _ (by simp)), jsReplace_id _ s (hp _ (by simp)),
    jsReplace_id _ s (hp _ (by simp)), jsReplace_id _ s (hp _ (by simp)),
    jsReplace_id _ s (hp _ (by simp)), jsReplace_id _ s himg,
    jsReplace_id _ s hbr, jsReplace_id _ s hhr, jsReplace_id _ s hinput,
    jsReplace_id _ s hbutton, jsReplace_id _ s hcatch]

/-- pass 3 is the identity on chrome-free triple-free trimmed text. -/
theorem removeNavigationMenus_id (s : List Char)
    (hlines : (splitLines s).all cleanLine = true)
    (hwin : windowsFree (splitLines s) = true)
    (htriple : hasTripleNewline s = false)
    (htrim : jsTrim s = s) :
    removeNavigationMenus s = s := by
  rw [removeNavigationMenus, navAux_id _ hwin, joinLines_splitLines,
    collapseNewlines, collapseAux_id s 0 (by omega) (by simpa using htriple),
    List.replicate, List.nil_append, htrim]
  intro l hl
  obtain ⟨_, _, _, h4, h5, h6, _⟩ :=
    cleanLine_spec l ((List.all_eq_true.mp hlines) l hl)
  exact ⟨h4, h5, h6⟩

/-- pass 4 is the identity on triple-free text with no trailing
whitespace on any line. -/
theorem cleanWhitespace_id (s : List Char)
    (hlines : (splitLines s).all cleanLine = true)
    (htriple : hasTripleNewline s = false) :
    cleanWhitespace s = s := by
  rw [cleanWhitespace, collapseNewlines,
    collapseAux_id s 0 (by omega) (by simpa using htriple),
    List.replicate, List.nil_append]
  have hmap : (splitLines s).map jsTrimEnd = splitLines s := by
    nth_rewrite 2 [← List.map_id (splitLines s)]
    apply List.map_congr_left
    intro l hl
    obtain ⟨_, _, _, _, _, _, h7⟩ :=
      cleanLine_spec l ((List.all_eq_true.mp hlines) l hl)
    exact h7
  rw [hmap, joinLines_splitLines]

end ScrappeTout

namespace ScrappeTout

/-- every pass of the pipeline is the identity on a document in
pipeline normal form, under any option combination. -/
theorem postProcessMarkdown_id (s : List Char)
    (pb ct : Bool) (h : cleanDoc s = true) :
    postProcessMarkdown s pb ct = s := by
  simp only [cleanDoc, Bool.and_eq_true, Bool.not_eq_true',
    decide_eq_true_eq, and_assoc] at h
  obtain ⟨hlines, hwin, htriple, htrim, h1, h2, h3, h4, h5, hpair, himg,
    hbr, hhr, hinput, hbutton, hcatch⟩ := h
  have e0 : removeHeaderNav s = s := removeHeaderNav_id s hlines
  have e1 : removeDuplicateTOC s = s := removeDuplicateTOC_id s hlines
  have e2 : convertDefinitionLists s = s :=
    convertDefinitionLists_id s h1 h2 h3 h4 h5
  have e3 : stripRemainingHtml s = s :=
    stripRemainingHtml_id s hpair himg hbr hhr hinput hbutton hcatch
  have e4 : removeNavigationMenus s = s :=
    removeNavigationMenus_id s hlines hwin htriple htrim
  have e5 : cleanWhitespace s = s := cleanWhitespace_id s hlines htriple
  show cleanWhitespace (removeNavigationMenus
    (if ct = true then
      stripRemainingHtml (convertDefinitionLists (removeDuplicateTOC
        (removeHeaderNav s)))
     else convertDefinitionLists (removeDuplicateTOC
        (removeHeaderNav s)))) = s
  rw [e0, e1, e2]
  cases ct with
  | false => simp [e4, e5]
  | true => simp [e3, e4, e5]

/-- C8 (counterexample): `"a\n \n\nb"` is free of chrome (no line
matches any chrome phrase, menu shape or navigation-link heuristic),
yet `normalize` is not idempotent on it: the first pass yields
`"a\n\n\nb"` (the whitespace-only line is emptied after the newline
collapse), and the second pass collapses the now-tripled newlines to
`"a\n\nb"`. -/
theorem C8_counterexample :
    ¬(normalize (normalize "a\n \n\nb".toList) =
        normalize "a\n \n\nb".toList) := by
  decide

/-- C8 (amended): `normalize` is idempotent at every text whose
one-pass output is in pipeline normal form (chrome-free in every
line-level and window-level sense, no definition-list or HTML-tag
match anywhere, no run of three newlines, no trailing whitespace on
any line, no leading/trailing whitespace) — chrome-freeness of the
input alone does not suffice, because the final per-line trim can
reintroduce collapsible blank lines (see the counterexample). -/
theorem C8_idempotent_on_normal_form (x : List Char)
    (h : cleanDoc (normalize x) = true) :
    normalize (normalize x) = normalize x :=
  postProcessMarkdown_id (normalize x) false true h

/-- C8 witness: a two-line plain document. -/
theorem C8_idempotent_on_normal_form_witness :
    normalize (normalize "hello\nworld".toList) =
      normalize "hello\nworld".toList :=
  C8_idempotent_on_normal_form "hello\nworld".toList (by decide)

end ScrappeTout
